import Mathlib

/-!
Verification of the A2S_INFO response decoder of the `source_query` crate
(src/src/lib.rs and src/src/info.rs).  The two files contain the same decoder
(`ServerInfo::from_bytes` / `Response::from_bytes`); we embed it once.

The Rust code reads from a `Cursor` with the `bytes` crate's `Buf` methods
(`get_u8`, `get_i16`, `get_u64`, `get_i32`).  Those methods `assert!` that
enough bytes remain and panic otherwise; the decoder itself never checks the
remaining length.  We model a buffer as the list of not-yet-consumed bytes
(naturals, each < 256 in a real buffer), a reader as a function from the
buffer to a result carrying the value read and the remaining bytes, and the
bytes-crate panic as the distinguished outcome `panicked`.
-/

set_option maxHeartbeats 2000000
set_option maxRecDepth 4096

namespace SourceQuery

/-- Byte buffers: lists of naturals (each element of a real buffer is < 256). -/
abbrev Bytes := List Nat

/-- Embeds `enum ServerType` (src/src/lib.rs lines 5-10). -/
inductive ServerType
  | Dedicated
  | NonDedicated
  | SourceTVRelay
deriving DecidableEq, Repr

/-- Embeds `enum OS` (src/src/lib.rs lines 12-17). -/
inductive OS
  | Linux
  | Windows
  | Mac
deriving DecidableEq, Repr

/-- Embeds `struct ServerInfo` (src/src/lib.rs lines 19-41).  Rust's `u8`
fields become `Nat`, `i16` becomes `Int`, `u64` becomes `Nat`. -/
structure ServerInfo where
  protocol_version : Nat
  name : String
  map : String
  folder : String
  game : String
  steamapp_id : Int
  players : Nat
  max_players : Nat
  bots : Nat
  server_type : ServerType
  os : OS
  is_public : Bool
  uses_vac : Bool
  version : String
  port : Option Int
  steam_id : Option Nat
  spectator_port : Option Int
  spectator_name : Option String
  keywords : Option String
  game_id : Option Nat
deriving DecidableEq, Repr

/-- Embeds `std::io::Error` as produced by the decoder: always
`ErrorKind::InvalidData` together with the formatted message. -/
inductive DecodeError
  | invalidData (msg : String)
deriving DecidableEq, Repr

/-- Outcome of running (part of) the decoder: a value, a returned
`Err(..)`, or a Rust panic raised by a bytes-crate length assertion. -/
inductive DecodeResult (α : Type)
  | ok (a : α)
  | err (e : DecodeError)
  | panicked
deriving DecidableEq, Repr

/-- Maps over the `ok` value, keeping errors and panics. -/
def DecodeResult.map {α β : Type} (f : α → β) : DecodeResult α → DecodeResult β
  | .ok a => .ok (f a)
  | .err e => .err e
  | .panicked => .panicked

/-- True exactly on `err` outcomes. -/
def DecodeResult.isErr {α : Type} : DecodeResult α → Bool
  | .err _ => true
  | _ => false

/-- A reader over the cursor: consumes some bytes from the front of the
buffer and returns the value read together with the remaining bytes. -/
abbrev Reader (α : Type) := Bytes → DecodeResult (α × Bytes)

/-- Sequencing of readers, mirroring the Rust control flow: `?`-style early
return on `Err`, and propagation of a bytes-crate panic. -/
def pbind {α β : Type} (f : Reader α) (g : α → Reader β) : Reader β := fun b =>
  match f b with
  | .ok p => g p.1 p.2
  | .err e => .err e
  | .panicked => .panicked

/-- Reader that consumes nothing and returns a value. -/
def ppure {α : Type} (a : α) : Reader α := fun b => .ok (a, b)

/-- Reader for a Rust `return Err(..)`. -/
def pfail {α : Type} (e : DecodeError) : Reader α := fun _ => .err e

/-- Embeds `Buf::get_u8`: one byte, panicking when the buffer is empty. -/
def get_u8 : Reader Nat
  | [] => .panicked
  | b :: rest => .ok (b, rest)

/-- Little-endian value of a byte list (least significant byte first). -/
def leVal : Bytes → Nat
  | [] => 0
  | b :: t => b + 256 * leVal t

/-- Interprets a natural below 2^16 as a two's-complement `i16`. -/
def i16ofNat (n : Nat) : Int :=
  if n < 32768 then (n : Int) else (n : Int) - 65536

/-- Interprets a natural below 2^32 as a two's-complement `i32`. -/
def i32ofNat (n : Nat) : Int :=
  if n < 2147483648 then (n : Int) else (n : Int) - 4294967296

/-- Embeds `Buf::get_i16::<LittleEndian>`: two bytes, little endian, signed. -/
def get_i16_le : Reader Int
  | b0 :: b1 :: rest => .ok (i16ofNat (leVal [b0, b1]), rest)
  | _ => .panicked

/-- Embeds `Buf::get_i32::<LittleEndian>`: four bytes, little endian, signed. -/
def get_i32_le : Reader Int
  | b0 :: b1 :: b2 :: b3 :: rest => .ok (i32ofNat (leVal [b0, b1, b2, b3]), rest)
  | _ => .panicked

/-- Embeds `Buf::get_u64::<LittleEndian>`: eight bytes, little endian. -/
def get_u64_le : Reader Nat
  | b0 :: b1 :: b2 :: b3 :: b4 :: b5 :: b6 :: b7 :: rest =>
      .ok (leVal [b0, b1, b2, b3, b4, b5, b6, b7], rest)
  | _ => .panicked

/-- Embeds `get_string` (src/src/lib.rs lines 46-57) at the level of the
character list: scan bytes until a zero byte (consumed, excluded from the
result); every other byte `b` is pushed as the char `b as char`.  Reaching
the end of the buffer before a zero byte panics in `cur.get_u8()`. -/
def get_chars : Reader (List Char)
  | [] => .panicked
  | b :: rest =>
      if b = 0 then .ok ([], rest)
      else
        match get_chars rest with
        | .ok p => .ok (Char.ofNat b :: p.1, p.2)
        | .err e => .err e
        | .panicked => .panicked

/-- Embeds `get_string` (src/src/lib.rs lines 46-57): the scanned chars
packed into a `String`. -/
def get_string (b : Bytes) : DecodeResult (String × Bytes) :=
  (get_chars b).map fun p => (String.mk p.1, p.2)

/-- Embeds the `server_type` match (src/src/lib.rs lines 77-82);
`'d'` = 100, `'l'` = 108, `'p'` = 112. -/
def readServerType (b : Nat) : DecodeResult ServerType :=
  if b = 100 then .ok .Dedicated
  else if b = 108 then .ok .NonDedicated
  else if b = 112 then .ok .SourceTVRelay
  else .err (.invalidData ("Unknown server type: " ++ (Char.ofNat b).toString))

/-- Embeds the `os` match (src/src/lib.rs lines 83-88);
`'l'` = 108, `'w'` = 119, `'m'` = 109. -/
def readOS (b : Nat) : DecodeResult OS :=
  if b = 108 then .ok .Linux
  else if b = 119 then .ok .Windows
  else if b = 109 then .ok .Mac
  else .err (.invalidData ("Unknown environment: " ++ (Char.ofNat b).toString))

/-- Error message of the header check (src/src/lib.rs line 66). -/
def headerErr (b : Nat) : DecodeError :=
  .invalidData ("Expected header `l` got `" ++ (Char.ofNat b).toString ++ "`")

/-- Conditional read of an EDF-gated field: consume only when the bit test
is true, mirroring the `if edf & bit != 0 { Some(..) } else { None }` arms
(src/src/lib.rs lines 94-123). -/
def readIf {α : Type} (cond : Bool) (get : Reader α) : Reader (Option α) := fun b =>
  if cond then
    match get b with
    | .ok p => .ok (some p.1, p.2)
    | .err e => .err e
    | .panicked => .panicked
  else .ok (none, b)

/-- Embeds the `0x40` arm (src/src/lib.rs lines 106-111): a spectator port
immediately followed by a spectator name, produced as a pair. -/
def get_spectator : Reader (Int × String) :=
  pbind get_i16_le fun sp =>
  pbind get_string fun sn =>
  ppure (sp, sn)

/-- Results of the EDF-gated tail of the decoder (src/src/lib.rs lines 92-123). -/
structure ExtraFields where
  port : Option Int
  steam_id : Option Nat
  spectator : Option (Int × String)
  keywords : Option String
  game_id : Option Nat
deriving DecidableEq, Repr

/-- Embeds the EDF-gated reads (src/src/lib.rs lines 94-123), strictly in
source order: port (bit 0x80), steam_id (0x10), spectator pair (0x40),
keywords (0x20), game_id (0x01). -/
def decodeExtra (edf : Nat) : Reader ExtraFields :=
  pbind (readIf ((edf &&& 128) != 0) get_i16_le) fun port =>
  pbind (readIf ((edf &&& 16) != 0) get_u64_le) fun steam_id =>
  pbind (readIf ((edf &&& 64) != 0) get_spectator) fun spectator =>
  pbind (readIf ((edf &&& 32) != 0) get_string) fun keywords =>
  pbind (readIf ((edf &&& 1) != 0) get_u64_le) fun game_id =>
  ppure { port := port, steam_id := steam_id, spectator := spectator,
          keywords := keywords, game_id := game_id }

/-- Embeds `ServerInfo::from_bytes` (src/src/lib.rs lines 61-148) keeping
the final cursor: the decoded record together with the unconsumed bytes.
The header byte `0x49` is 73; the visibility byte is compared to 0 and the
VAC byte to 1 exactly as in lines 89-90. -/
def decode : Reader ServerInfo :=
  pbind get_u8 fun header =>
  if header ≠ 73 then pfail (headerErr header) else
  pbind get_u8 fun protocol_version =>
  pbind get_string fun name =>
  pbind get_string fun map =>
  pbind get_string fun folder =>
  pbind get_string fun game =>
  pbind get_i16_le fun steamapp_id =>
  pbind get_u8 fun players =>
  pbind get_u8 fun max_players =>
  pbind get_u8 fun bots =>
  pbind get_u8 fun st =>
  pbind (fun b => (readServerType st).map fun v => (v, b)) fun server_type =>
  pbind get_u8 fun ob =>
  pbind (fun b => (readOS ob).map fun v => (v, b)) fun os =>
  pbind get_u8 fun vis =>
  pbind get_u8 fun vac =>
  pbind get_string fun version =>
  pbind get_u8 fun edf =>
  pbind (decodeExtra edf) fun ex =>
  ppure { protocol_version := protocol_version, name := name, map := map,
          folder := folder, game := game, steamapp_id := steamapp_id,
          players := players, max_players := max_players, bots := bots,
          server_type := server_type, os := os,
          is_public := vis == 0, uses_vac := vac == 1, version := version,
          port := ex.port, steam_id := ex.steam_id,
          spectator_port := Option.map Prod.fst ex.spectator,
          spectator_name := Option.map Prod.snd ex.spectator,
          keywords := ex.keywords, game_id := ex.game_id }

/-- Embeds `ServerInfo::from_bytes` as called by `query`: the final cursor
position is discarded (trailing bytes are ignored). -/
def from_bytes (b : Bytes) : DecodeResult ServerInfo :=
  (decode b).map Prod.fst

/-- Embeds the pure tail of `query` (src/src/lib.rs lines 173-182): read the
4-byte little-endian leading value of the received datagram; `-1` hands the
remaining bytes to `from_bytes`, anything else is `Unknown header: {n}`. -/
def processDatagram (b : Bytes) : DecodeResult ServerInfo :=
  match get_i32_le b with
  | .ok p =>
      if p.1 = -1 then from_bytes p.2
      else .err (.invalidData ("Unknown header: " ++ toString p.1))
  | .err e => .err e
  | .panicked => .panicked

/-- Fixed (unconditional) part of the concrete reply buffer of the spec's
scenarios: header `0x49`, protocol `0x11`, "Test", "de_dust2", "cstrike",
"Counter-Strike", steamapp bytes `10 00`, players `05`, max `10`, bots `00`,
type `'d'`, os `'l'`, visibility `00`, vac `01`, version "1.0". -/
def fixedBytes : Bytes :=
  [73, 17,
   84, 101, 115, 116, 0,
   100, 101, 95, 100, 117, 115, 116, 50, 0,
   99, 115, 116, 114, 105, 107, 101, 0,
   67, 111, 117, 110, 116, 101, 114, 45, 83, 116, 114, 105, 107, 101, 0,
   16, 0,
   5, 16, 0,
   100, 108,
   0, 1,
   49, 46, 48, 0]

/-- Concrete buffer of the first scenario: fixed part, then EDF `00`. -/
def c4buf : Bytes := fixedBytes ++ [0]

/-- Value actually decoded from `c4buf`. -/
def c4actual : ServerInfo :=
  { protocol_version := 17, name := "Test", map := "de_dust2",
    folder := "cstrike", game := "Counter-Strike", steamapp_id := 16,
    players := 5, max_players := 16, bots := 0,
    server_type := .Dedicated, os := .Linux,
    is_public := true, uses_vac := true, version := "1.0",
    port := none, steam_id := none, spectator_port := none,
    spectator_name := none, keywords := none, game_id := none }

/-- Value the spec's first scenario claims, with `steamapp_id = 10`. -/
def c4claimed : ServerInfo := { c4actual with steamapp_id := 10 }

/-- Concrete buffer of the second scenario: fixed part, EDF `0x81`,
port bytes `01 6B`, game_id bytes `2A 00 00 00 00 00 00 00`. -/
def c5buf : Bytes := fixedBytes ++ [129, 1, 107, 42, 0, 0, 0, 0, 0, 0, 0]

/-- Value actually decoded from `c5buf`: port bytes `01 6B` little endian
are 0x6B01 = 27393. -/
def c5actual : ServerInfo :=
  { c4actual with port := some 27393, game_id := some 42 }

/-- Value the spec's second scenario claims, with `port = 27905`. -/
def c5claimed : ServerInfo :=
  { c4claimed with port := some 27905, game_id := some 42 }

/-- Concrete reply bytes with the server-type byte `t` and the os byte `o`
in place of `'d'`/`'l'`, everything else as in the first scenario. -/
def bufTO (t o : Nat) : Bytes :=
  [73, 17,
   84, 101, 115, 116, 0,
   100, 101, 95, 100, 117, 115, 116, 50, 0,
   99, 115, 116, 114, 105, 107, 101, 0,
   67, 111, 117, 110, 116, 101, 114, 45, 83, 116, 114, 105, 107, 101, 0,
   16, 0,
   5, 16, 0] ++
  t :: o ::
  [0, 1,
   49, 46, 48, 0,
   0]

/-- Concrete reply bytes with the visibility byte `vis` and the VAC byte
`vac`, everything else as in the first scenario. -/
def bufVV (vis vac : Nat) : Bytes :=
  [73, 17,
   84, 101, 115, 116, 0,
   100, 101, 95, 100, 117, 115, 116, 50, 0,
   99, 115, 116, 114, 105, 107, 101, 0,
   67, 111, 117, 110, 116, 101, 114, 45, 83, 116, 114, 105, 107, 101, 0,
   16, 0,
   5, 16, 0,
   100, 108] ++
  vis :: vac ::
  [49, 46, 48, 0,
   0]

/-- C4 counterexample: the first concrete scenario does not decode to the
record the spec states, because the little-endian steamapp bytes `10 00`
are 0x0010 = 16, not 10. -/
theorem C4_counterexample : from_bytes c4buf ≠ DecodeResult.ok c4claimed := by
  decide

/-- C4 (amended): decoding the first concrete scenario buffer succeeds and
yields exactly the stated record, except that `steamapp_id` is 16 (the
little-endian value of the bytes `10 00`), not 10. -/
theorem C4_concrete_decode : from_bytes c4buf = DecodeResult.ok c4actual := by
  decide

/-- C5 counterexample: the second concrete scenario does not decode to the
record the spec states, because the little-endian port bytes `01 6B` are
0x6B01 = 27393, not 27905. -/
theorem C5_counterexample : from_bytes c5buf ≠ DecodeResult.ok c5claimed := by
  decide

/-- C5 (amended): decoding the second concrete scenario buffer succeeds with
`port = Some 27393` (little-endian value of the bytes `01 6B`),
`game_id = Some 42`, and `steam_id`, `spectator_port`, `spectator_name`,
`keywords` all `None`. -/
theorem C5_concrete_decode : from_bytes c5buf = DecodeResult.ok c5actual := by
  decide

/-- C6: whenever the first byte of the buffer handed to `from_bytes` is not
0x49 = 73, the result is the malformed-header `InvalidData` error whose
message renders that byte as a character, and no `ServerInfo` is returned. -/
theorem C6_malformed_header (b : Nat) (rest : Bytes) (h : b ≠ 73) :
    from_bytes (b :: rest) =
      DecodeResult.err (DecodeError.invalidData
        ("Expected header `l` got `" ++ (Char.ofNat b).toString ++ "`")) := by
  simp [from_bytes, decode, pbind, get_u8, pfail, headerErr, h, DecodeResult.map]

/-- C6 witness: first byte 106 = `'j'` produces the malformed-header error
naming `j`. -/
theorem C6_malformed_header_witness :
    (106 ≠ 73) ∧ from_bytes [106] =
      DecodeResult.err (DecodeError.invalidData "Expected header `l` got `j`") :=
  ⟨by decide, by rw [C6_malformed_header 106 [] (by decide)]; decide⟩

/-- C7: the three known server-type codes and the three known os codes
decode by exact match, and any other byte in either position yields the
unknown-enum `InvalidData` error carrying the offending character. -/
theorem C7_enum_bytes :
    (from_bytes (bufTO 100 108) = DecodeResult.ok c4actual) ∧
    (from_bytes (bufTO 108 119) =
      DecodeResult.ok { c4actual with server_type := .NonDedicated, os := .Windows }) ∧
    (from_bytes (bufTO 112 109) =
      DecodeResult.ok { c4actual with server_type := .SourceTVRelay, os := .Mac }) ∧
    (∀ t : Nat, t ≠ 100 → t ≠ 108 → t ≠ 112 →
      from_bytes (bufTO t 108) =
        DecodeResult.err (DecodeError.invalidData
          ("Unknown server type: " ++ (Char.ofNat t).toString))) ∧
    (∀ o : Nat, o ≠ 108 → o ≠ 119 → o ≠ 109 →
      from_bytes (bufTO 100 o) =
        DecodeResult.err (DecodeError.invalidData
          ("Unknown environment: " ++ (Char.ofNat o).toString))) := by
  refine ⟨by decide, by decide, by decide, ?_, ?_⟩
  · intro t h1 h2 h3
    simp [bufTO, from_bytes, decode, pbind, get_u8, get_string, get_chars,
      get_i16_le, readServerType, pfail, ppure, DecodeResult.map, h1, h2, h3]
  · intro o h1 h2 h3
    simp [bufTO, from_bytes, decode, pbind, get_u8, get_string, get_chars,
      get_i16_le, readServerType, readOS, pfail, ppure, DecodeResult.map,
      h1, h2, h3]

/-- C7 witness: the server-type byte 120 = `'x'` and the os byte
122 = `'z'` each produce the unknown-enum error naming the character. -/
theorem C7_enum_bytes_witness :
    ((120 : Nat) ≠ 100) ∧ ((120 : Nat) ≠ 108) ∧ ((120 : Nat) ≠ 112) ∧
    from_bytes (bufTO 120 108) =
      DecodeResult.err (DecodeError.invalidData "Unknown server type: x") ∧
    ((122 : Nat) ≠ 108) ∧ ((122 : Nat) ≠ 119) ∧ ((122 : Nat) ≠ 109) ∧
    from_bytes (bufTO 100 122) =
      DecodeResult.err (DecodeError.invalidData "Unknown environment: z") :=
  ⟨by decide, by decide, by decide,
   by rw [C7_enum_bytes.2.2.2.1 120 (by decide) (by decide) (by decide)]; decide,
   by decide, by decide, by decide,
   by rw [C7_enum_bytes.2.2.2.2 122 (by decide) (by decide) (by decide)]; decide⟩

/-- C8: for every visibility byte and every VAC byte, the decoded record has
`is_public` true exactly when the visibility byte is 0 and `uses_vac` true
exactly when the VAC byte is 1; all other fields are unaffected. -/
theorem C8_visibility_vac (vis vac : Nat) :
    from_bytes (bufVV vis vac) =
      DecodeResult.ok { c4actual with is_public := vis == 0, uses_vac := vac == 1 } := by
  simp [bufVV, from_bytes, decode, decodeExtra, readIf, pbind, get_u8,
    get_string, get_chars, get_i16_le, readServerType, readOS, ppure,
    DecodeResult.map, c4actual, leVal, i16ofNat]

/-- C9: the leading 4-byte little-endian value of a received datagram is
checked first; the value -1 (bytes `FF FF FF FF`) hands exactly the
remaining bytes to the field decoder, and any other leading value yields
the unsupported-format error without decoding any field. -/
theorem C9_leading_value :
    (∀ rest : Bytes,
      processDatagram (255 :: 255 :: 255 :: 255 :: rest) = from_bytes rest) ∧
    (∀ b0 b1 b2 b3 : Nat, ∀ rest : Bytes,
      i32ofNat (leVal [b0, b1, b2, b3]) ≠ -1 →
      processDatagram (b0 :: b1 :: b2 :: b3 :: rest) =
        DecodeResult.err (DecodeError.invalidData
          ("Unknown header: " ++ toString (i32ofNat (leVal [b0, b1, b2, b3]))))) := by
  constructor
  · intro rest
    norm_num [processDatagram, get_i32_le, leVal, i32ofNat]
  · intro b0 b1 b2 b3 rest h
    simp [processDatagram, get_i32_le, h]

/-- A reader is exact when, whenever it succeeds, it consumed an initial
segment of the buffer, its outcome depends only on that segment, and every
proper truncation of that segment makes it panic (a bytes-crate length
assertion fires before any byte outside the buffer is touched). -/
def IsExact {α : Type} (f : Reader α) : Prop :=
  ∀ l a r, f l = .ok (a, r) →
    ∃ c, l = c ++ r ∧ (∀ r2, f (c ++ r2) = .ok (a, r2)) ∧
      (∀ n, n < c.length → f (c.take n) = .panicked)

theorem isExact_ppure {α : Type} (a : α) : IsExact (ppure a) := by
  intro l x r h
  simp only [ppure, DecodeResult.ok.injEq, Prod.mk.injEq] at h
  obtain ⟨rfl, rfl⟩ := h
  exact ⟨[], rfl, fun r2 => rfl, fun n hn => by simp at hn⟩

theorem isExact_pfail {α : Type} (e : DecodeError) : IsExact (pfail (α := α) e) := by
  intro l x r h
  simp [pfail] at h

/-- Readers that consume nothing and just lift an already-computed
`DecodeResult` (the enum matches on a byte already read). -/
theorem isExact_lift {α : Type} (d : DecodeResult α) :
    IsExact (fun b => d.map fun v => (v, b)) := by
  intro l x r h
  cases d with
  | ok v =>
      simp only [DecodeResult.map, DecodeResult.ok.injEq, Prod.mk.injEq] at h
      obtain ⟨rfl, rfl⟩ := h
      exact ⟨[], rfl, fun r2 => rfl, fun n hn => by simp at hn⟩
  | err e => simp [DecodeResult.map] at h
  | panicked => simp [DecodeResult.map] at h

theorem isExact_pbind {α β : Type} {f : Reader α} {g : α → Reader β}
    (hf : IsExact f) (hg : ∀ a, IsExact (g a)) : IsExact (pbind f g) := by
  intro l x r h
  unfold pbind at h
  cases hfl : f l with
  | ok p =>
      rw [hfl] at h
      obtain ⟨c1, rfl, hrun1, htr1⟩ := hf l p.1 p.2 (by rw [hfl])
      obtain ⟨c2, hc2, hrun2, htr2⟩ := hg p.1 p.2 x r h
      refine ⟨c1 ++ c2, by rw [List.append_assoc, ← hc2], ?_, ?_⟩
      · intro r2
        rw [List.append_assoc]
        unfold pbind
        rw [hrun1 (c2 ++ r2)]
        exact hrun2 r2
      · intro n hn
        simp only [List.length_append] at hn
        rw [List.take_append_eq_append_take]
        by_cases hcase : n < c1.length
        · have h0 : n - c1.length = 0 := by omega
          rw [h0]
          simp only [List.take_zero, List.append_nil]
          unfold pbind
          rw [htr1 n hcase]
        · have hc1 : c1.take n = c1 := List.take_of_length_le (by omega)
          rw [hc1]
          unfold pbind
          rw [hrun1 (c2.take (n - c1.length))]
          exact htr2 (n - c1.length) (by omega)
  | err e => rw [hfl] at h; exact absurd h (by simp)
  | panicked => rw [hfl] at h; exact absurd h (by simp)

theorem isExact_get_u8 : IsExact get_u8 := by
  intro l a r h
  cases l with
  | nil => simp [get_u8] at h
  | cons b t =>
      simp only [get_u8, DecodeResult.ok.injEq, Prod.mk.injEq] at h
      obtain ⟨rfl, rfl⟩ := h
      refine ⟨[b], rfl, fun r2 => rfl, ?_⟩
      intro n hn
      simp only [List.length_cons, List.length_nil] at hn
      interval_cases n
      rfl

theorem isExact_get_i16_le : IsExact get_i16_le := by
  intro l a r h
  rcases l with _ | ⟨b0, _ | ⟨b1, t⟩⟩ <;> simp only [get_i16_le] at h
  · exact absurd h (by simp)
  · exact absurd h (by simp)
  · simp only [DecodeResult.ok.injEq, Prod.mk.injEq] at h
    obtain ⟨rfl, rfl⟩ := h
    refine ⟨[b0, b1], rfl, fun r2 => rfl, ?_⟩
    intro n hn
    simp only [List.length_cons, List.length_nil] at hn
    interval_cases n <;> rfl

theorem isExact_get_u64_le : IsExact get_u64_le := by
  intro l a r h
  rcases l with _ | ⟨b0, _ | ⟨b1, _ | ⟨b2, _ | ⟨b3, _ | ⟨b4, _ | ⟨b5, _ | ⟨b6, _ | ⟨b7, t⟩⟩⟩⟩⟩⟩⟩⟩ <;>
    simp only [get_u64_le] at h
  case nil => exact absurd h (by simp)
  case cons.nil => exact absurd h (by simp)
  case cons.cons.nil => exact absurd h (by simp)
  case cons.cons.cons.nil => exact absurd h (by simp)
  case cons.cons.cons.cons.nil => exact absurd h (by simp)
  case cons.cons.cons.cons.cons.nil => exact absurd h (by simp)
  case cons.cons.cons.cons.cons.cons.nil => exact absurd h (by simp)
  case cons.cons.cons.cons.cons.cons.cons.nil => exact absurd h (by simp)
  case cons.cons.cons.cons.cons.cons.cons.cons =>
    simp only [DecodeResult.ok.injEq, Prod.mk.injEq] at h
    obtain ⟨rfl, rfl⟩ := h
    refine ⟨[b0, b1, b2, b3, b4, b5, b6, b7], rfl, fun r2 => rfl, ?_⟩
    intro n hn
    simp only [List.length_cons, List.length_nil] at hn
    interval_cases n <;> rfl

theorem isExact_get_chars : IsExact get_chars := by
  intro l
  induction l with
  | nil => intro a r h; simp [get_chars] at h
  | cons b t ih =>
      intro a r h
      by_cases hb : b = 0
      · subst hb
        simp only [get_chars, if_pos rfl, DecodeResult.ok.injEq, Prod.mk.injEq] at h
        obtain ⟨rfl, rfl⟩ := h
        refine ⟨[0], rfl, fun r2 => by simp [get_chars], ?_⟩
        intro n hn
        simp only [List.length_cons, List.length_nil] at hn
        interval_cases n
        rfl
      · simp only [get_chars, if_neg hb] at h
        cases hc : get_chars t with
        | ok p =>
            rw [hc] at h
            simp only [DecodeResult.ok.injEq, Prod.mk.injEq] at h
            obtain ⟨rfl, rfl⟩ := h
            obtain ⟨c', rfl, hrun, htr⟩ := ih p.1 p.2 (by rw [hc])
            refine ⟨b :: c', rfl, ?_, ?_⟩
            · intro r2
              simp [get_chars, hb, hrun r2]
            · intro n hn
              cases n with
              | zero => rfl
              | succ m =>
                  simp only [List.length_cons] at hn
                  simp [get_chars, hb, htr m (by omega)]
        | err e => rw [hc] at h; exact absurd h (by simp)
        | panicked => rw [hc] at h; exact absurd h (by simp)

theorem isExact_get_string : IsExact get_string := by
  have heq : get_string = pbind get_chars fun s => ppure (String.mk s) := by
    funext b
    simp only [get_string, pbind, ppure, DecodeResult.map]
    cases get_chars b <;> rfl
  rw [heq]
  exact isExact_pbind isExact_get_chars fun s => isExact_ppure _

theorem isExact_get_spectator : IsExact get_spectator := by
  unfold get_spectator
  exact isExact_pbind isExact_get_i16_le fun sp =>
    isExact_pbind isExact_get_string fun sn => isExact_ppure _

theorem isExact_readIf {α : Type} (cond : Bool) (get : Reader α)
    (hg : IsExact get) : IsExact (readIf cond get) := by
  cases cond
  · intro l a r h
    simp only [readIf, Bool.false_eq_true, if_false, DecodeResult.ok.injEq,
      Prod.mk.injEq] at h
    obtain ⟨rfl, rfl⟩ := h
    exact ⟨[], rfl, fun r2 => by simp [readIf], fun n hn => by simp at hn⟩
  · have heq : readIf true get = pbind get fun x => ppure (some x) := by
      funext b
      simp only [readIf, if_true, pbind, ppure]
    rw [heq]
    exact isExact_pbind hg fun x => isExact_ppure _

theorem isExact_decodeExtra (edf : Nat) : IsExact (decodeExtra edf) := by
  unfold decodeExtra
  refine isExact_pbind (isExact_readIf _ _ isExact_get_i16_le) fun port => ?_
  refine isExact_pbind (isExact_readIf _ _ isExact_get_u64_le) fun steam_id => ?_
  refine isExact_pbind (isExact_readIf _ _ isExact_get_spectator) fun spectator => ?_
  refine isExact_pbind (isExact_readIf _ _ isExact_get_string) fun keywords => ?_
  refine isExact_pbind (isExact_readIf _ _ isExact_get_u64_le) fun game_id => ?_
  exact isExact_ppure _

/-- The full decoder is exact: it consumes a determined initial segment of
the buffer, never looks beyond it, and panics on every proper truncation of
a successfully decoded buffer. -/
theorem isExact_decode : IsExact decode := by
  unfold decode
  refine isExact_pbind isExact_get_u8 fun header => ?_
  by_cases hh : header ≠ 73
  · rw [if_pos hh]; exact isExact_pfail _
  · rw [if_neg hh]
    refine isExact_pbind isExact_get_u8 fun protocol_version => ?_
    refine isExact_pbind isExact_get_string fun name => ?_
    refine isExact_pbind isExact_get_string fun map => ?_
    refine isExact_pbind isExact_get_string fun folder => ?_
    refine isExact_pbind isExact_get_string fun game => ?_
    refine isExact_pbind isExact_get_i16_le fun steamapp_id => ?_
    refine isExact_pbind isExact_get_u8 fun players => ?_
    refine isExact_pbind isExact_get_u8 fun max_players => ?_
    refine isExact_pbind isExact_get_u8 fun bots => ?_
    refine isExact_pbind isExact_get_u8 fun st => ?_
    refine isExact_pbind (isExact_lift _) fun server_type => ?_
    refine isExact_pbind isExact_get_u8 fun ob => ?_
    refine isExact_pbind (isExact_lift _) fun os => ?_
    refine isExact_pbind isExact_get_u8 fun vis => ?_
    refine isExact_pbind isExact_get_u8 fun vac => ?_
    refine isExact_pbind isExact_get_string fun version => ?_
    refine isExact_pbind isExact_get_u8 fun edf => ?_
    refine isExact_pbind (isExact_decodeExtra edf) fun ex => ?_
    exact isExact_ppure _

/-- Scanning a zero-free byte list followed by a zero byte yields exactly
those bytes as characters and leaves exactly the bytes after the zero. -/
theorem get_chars_append (l r : Bytes) (h : 0 ∉ l) :
    get_chars (l ++ 0 :: r) = .ok (l.map Char.ofNat, r) := by
  induction l with
  | nil => simp [get_chars]
  | cons b t ih =>
      rw [List.mem_cons] at h
      push_neg at h
      obtain ⟨hb, ht⟩ := h
      simp [get_chars, Ne.symm hb, ih ht]

/-- String form of `get_chars_append`. -/
theorem get_string_append (l r : Bytes) (h : 0 ∉ l) :
    get_string (l ++ 0 :: r) = .ok (String.mk (l.map Char.ofNat), r) := by
  simp [get_string, get_chars_append l r h, DecodeResult.map]

/-- Running the decoder over the fixed concrete part of the scenario buffer
leaves exactly the EDF byte and the EDF-gated reads to perform. -/
theorem decode_fixedBytes (t : Bytes) :
    decode (fixedBytes ++ t) =
      (pbind get_u8 fun edf =>
       pbind (decodeExtra edf) fun ex =>
       ppure { protocol_version := 17, name := "Test", map := "de_dust2",
               folder := "cstrike", game := "Counter-Strike", steamapp_id := 16,
               players := 5, max_players := 16, bots := 0,
               server_type := .Dedicated, os := .Linux,
               is_public := true, uses_vac := true, version := "1.0",
               port := ex.port, steam_id := ex.steam_id,
               spectator_port := Option.map Prod.fst ex.spectator,
               spectator_name := Option.map Prod.snd ex.spectator,
               keywords := ex.keywords, game_id := ex.game_id }) t := rfl

/-- C2: for every EDF byte `e` (all 256 values, so in particular all 32
combinations of the five meaningful bits), the decoder consumes after the
EDF byte exactly the bytes of the gated fields whose bit is set, in the
fixed order port (0x80), steam_id (0x10), spectator_port and spectator_name
as a pair (0x40), keywords (0x20), game_id (0x01); each optional field of
the result is `some` iff its bit is set, the two spectator fields are
gated by the same bit, every remaining byte is left unconsumed, and bits
outside {0x80,0x40,0x20,0x10,0x01} change nothing. -/
theorem C2_edf_combinations
    (e p0 p1 s0 s1 s2 s3 s4 s5 s6 s7 q0 q1 : Nat) (spn kw : Bytes)
    (g0 g1 g2 g3 g4 g5 g6 g7 : Nat) (rest : Bytes)
    (hspn : 0 ∉ spn) (hkw : 0 ∉ kw) :
    decode (fixedBytes ++ e ::
      ((if (e &&& 128) != 0 then [p0, p1] else []) ++
       (if (e &&& 16) != 0 then [s0, s1, s2, s3, s4, s5, s6, s7] else []) ++
       (if (e &&& 64) != 0 then q0 :: q1 :: (spn ++ [0]) else []) ++
       (if (e &&& 32) != 0 then kw ++ [0] else []) ++
       (if (e &&& 1) != 0 then [g0, g1, g2, g3, g4, g5, g6, g7] else []) ++
       rest)) =
      DecodeResult.ok
        ({ c4actual with
           port := if (e &&& 128) != 0 then some (i16ofNat (leVal [p0, p1])) else none,
           steam_id := if (e &&& 16) != 0
             then some (leVal [s0, s1, s2, s3, s4, s5, s6, s7]) else none,
           spectator_port := if (e &&& 64) != 0
             then some (i16ofNat (leVal [q0, q1])) else none,
           spectator_name := if (e &&& 64) != 0
             then some (String.mk (spn.map Char.ofNat)) else none,
           keywords := if (e &&& 32) != 0
             then some (String.mk (kw.map Char.ofNat)) else none,
           game_id := if (e &&& 1) != 0
             then some (leVal [g0, g1, g2, g3, g4, g5, g6, g7]) else none }, rest) := by
  rw [decode_fixedBytes]
  cases h80 : (e &&& 128) != 0 <;> cases h16 : (e &&& 16) != 0 <;>
    cases h64 : (e &&& 64) != 0 <;> cases h32 : (e &&& 32) != 0 <;>
    cases h1 : (e &&& 1) != 0 <;>
    simp only [decodeExtra, readIf, pbind, ppure, get_u8,
      h80, h16, h64, h32, h1] <;>
    simp [pbind, ppure, get_i16_le, get_u64_le, get_spectator, get_string,
      get_string_append, get_chars_append, hspn, hkw, c4actual,
      DecodeResult.map]

/-- C2 witness: EDF byte 255 (all five meaningful bits plus the junk bits
0x02, 0x04, 0x08) consumes all five gated fields in order and leaves the
trailing bytes `[9, 9]` unconsumed. -/
theorem C2_edf_combinations_witness :
    (0 : Nat) ∉ ([65] : Bytes) ∧ (0 : Nat) ∉ ([66] : Bytes) ∧
    decode (fixedBytes ++
        [255, 1, 107, 1, 0, 0, 0, 0, 0, 0, 0, 2, 1, 65, 0, 66, 0,
         42, 0, 0, 0, 0, 0, 0, 0, 9, 9]) =
      DecodeResult.ok
        ({ c4actual with
           port := some 27393, steam_id := some 1,
           spectator_port := some 258, spectator_name := some "A",
           keywords := some "B", game_id := some 42 }, [9, 9]) :=
  ⟨by decide, by decide, by
    have h := C2_edf_combinations 255 1 107 1 0 0 0 0 0 0 0 2 1 [65] [66]
      42 0 0 0 0 0 0 0 [9, 9] (by decide) (by decide)
    simpa [i16ofNat, leVal, c4actual] using h⟩

/-- C9 witness: the leading bytes `00 00 00 00` (value 0) are rejected with
the unsupported-format error. -/
theorem C9_leading_value_witness :
    (i32ofNat (leVal [0, 0, 0, 0]) ≠ -1) ∧
    processDatagram [0, 0, 0, 0] =
      DecodeResult.err (DecodeError.invalidData "Unknown header: 0") :=
  ⟨by decide, by rw [C9_leading_value.2 0 0 0 0 [] (by decide)]; decide⟩

/-- C1 counterexample: cutting the first scenario buffer to its first 10
bytes makes every subsequent read hit the end of the buffer, and
`from_bytes` then panics (the bytes-crate length assertion) instead of
returning the truncated-data decode error the claim states; in particular
the outcome is not an error value at all. -/
theorem C1_counterexample :
    from_bytes (c4buf.take 10) = DecodeResult.panicked ∧
    (from_bytes (c4buf.take 10)).isErr = false := by
  constructor <;> decide

/-- C1 (amended): on a short buffer the decoder never reads past the buffer
length and returns no partial `ServerInfo`, but the outcome is a panic (the
bytes-crate length assertion), not a truncated-data decode error: whenever
a buffer decodes successfully leaving `r` unconsumed, the decoder consumed
exactly an initial segment, and truncating the buffer anywhere inside that
segment makes `from_bytes` panic. -/
theorem C1_truncation_panics (l : Bytes) (i : ServerInfo) (r : Bytes)
    (h : decode l = .ok (i, r)) :
    (∃ c, l = c ++ r) ∧
    ∀ n, n < l.length - r.length → from_bytes (l.take n) = DecodeResult.panicked := by
  obtain ⟨c, rfl, hrun, htr⟩ := isExact_decode l i r h
  refine ⟨⟨c, rfl⟩, ?_⟩
  intro n hn
  simp only [List.length_append] at hn
  have hnc : n < c.length := by omega
  have htake : (c ++ r).take n = c.take n := by
    rw [List.take_append_eq_append_take]
    have h0 : n - c.length = 0 := by omega
    simp [h0]
  rw [htake]
  unfold from_bytes
  rw [htr n hnc]
  rfl

/-- C1 witness: the first scenario buffer decodes fully (remainder `[]`),
and cutting it at byte 5 panics. -/
theorem C1_truncation_panics_witness :
    decode c4buf = DecodeResult.ok (c4actual, ([] : Bytes)) ∧
    (5 < c4buf.length - ([] : Bytes).length) ∧
    from_bytes (c4buf.take 5) = DecodeResult.panicked :=
  ⟨by decide, by decide,
   (C1_truncation_panics c4buf c4actual [] (by decide)).2 5 (by decide)⟩

/-- C10: whenever `from_bytes` succeeds on a buffer, appending arbitrary
extra bytes still succeeds with a field-for-field identical result: the
trailing unconsumed data is silently ignored and never a decode error. -/
theorem C10_trailing_bytes (b extra : Bytes) (i : ServerInfo)
    (h : from_bytes b = DecodeResult.ok i) :
    from_bytes (b ++ extra) = DecodeResult.ok i := by
  unfold from_bytes at h ⊢
  cases hd : decode b with
  | ok p =>
      rw [hd] at h
      simp only [DecodeResult.map, DecodeResult.ok.injEq] at h
      obtain ⟨c, rfl, hrun, -⟩ := isExact_decode b p.1 p.2 (by rw [hd])
      rw [List.append_assoc, hrun (p.2 ++ extra)]
      simp [DecodeResult.map, h]
  | err e => rw [hd] at h; exact absurd h (by simp [DecodeResult.map])
  | panicked => rw [hd] at h; exact absurd h (by simp [DecodeResult.map])

/-- C10 witness: the second scenario buffer still decodes to the same
record after appending three junk bytes. -/
theorem C10_trailing_bytes_witness :
    from_bytes c5buf = DecodeResult.ok c5actual ∧
    from_bytes (c5buf ++ [1, 2, 3]) = DecodeResult.ok c5actual :=
  ⟨by decide, C10_trailing_bytes c5buf [1, 2, 3] c5actual (by decide)⟩

/-- Modelled from the spec: the repository has no encoder, so the synthetic
reply-buffer construction of the round-trip property (§8) is modelled from
the spec's wire layout (§4.2, §6).  Byte code of a server type: `'d'`,
`'l'`, `'p'`. -/
def serverTypeCode : ServerType → Nat
  | .Dedicated => 100
  | .NonDedicated => 108
  | .SourceTVRelay => 112

/-- Modelled from the spec: byte code of an os: `'l'`, `'w'`, `'m'`. -/
def osCode : OS → Nat
  | .Linux => 108
  | .Windows => 119
  | .Mac => 109

/-- Little-endian bytes of a value, fixed width. -/
def leBytes : Nat → Nat → Bytes
  | 0, _ => []
  | w + 1, n => n % 256 :: leBytes w (n / 256)

/-- Modelled from the spec: a null-terminated text field, one byte per
character (§4.2 step 4). -/
def encodeString (s : String) : Bytes := s.data.map Char.toNat ++ [0]

/-- Modelled from the spec: a little-endian 16-bit signed integer field. -/
def encodeI16 (v : Int) : Bytes := leBytes 2 (v % 65536).toNat

/-- Modelled from the spec: a little-endian 64-bit unsigned integer field. -/
def encodeU64 (n : Nat) : Bytes := leBytes 8 n

/-- Modelled from the spec: an EDF-gated field is present in the buffer
exactly when the corresponding option is `some` (§4.2 step 12). -/
def encodeOpt {α : Type} (o : Option α) (enc : α → Bytes) : Bytes :=
  match o with
  | some a => enc a
  | none => []

/-- Modelled from the spec: the spectator pair, written only when present
(both fields share the 0x40 bit, port first then name). -/
def encodeSpec : Option Int → Option String → Bytes
  | some p, some n => encodeI16 p ++ encodeString n
  | _, _ => []

/-- The spectator pair as the decoder reconstructs it. -/
def specPair : Option Int → Option String → Option (Int × String)
  | some p, some n => some (p, n)
  | _, _ => none

/-- Modelled from the spec: the EDF byte with a bit set for each present
optional field (0x80 port, 0x10 steam_id, 0x40 spectator pair,
0x20 keywords, 0x01 game_id). -/
def edfOf (i : ServerInfo) : Nat :=
  (if i.port.isSome then 128 else 0) +
  (if i.steam_id.isSome then 16 else 0) +
  (if i.spectator_port.isSome then 64 else 0) +
  (if i.keywords.isSome then 32 else 0) +
  (if i.game_id.isSome then 1 else 0)

/-- Modelled from the spec: a synthetic reply buffer for a `ServerInfo`
value, in the §4.2 order — header 0x49, protocol byte, four null-terminated
names, steamapp_id, players, max_players, bots, server type byte, os byte,
visibility byte (0 when public), VAC byte (1 when on), version, the EDF
byte, then the EDF-gated fields in the fixed order. -/
def encodeServerInfo (i : ServerInfo) : Bytes :=
  [73, i.protocol_version] ++
  encodeString i.name ++ encodeString i.map ++
  encodeString i.folder ++ encodeString i.game ++
  encodeI16 i.steamapp_id ++
  [i.players, i.max_players, i.bots,
   serverTypeCode i.server_type, osCode i.os,
   if i.is_public then 0 else 1, if i.uses_vac then 1 else 0] ++
  encodeString i.version ++
  [edfOf i] ++
  encodeOpt i.port encodeI16 ++
  encodeOpt i.steam_id encodeU64 ++
  encodeSpec i.spectator_port i.spectator_name ++
  encodeOpt i.keywords encodeString ++
  encodeOpt i.game_id encodeU64

/-- Range of a Rust `i16` value. -/
abbrev I16Range (v : Int) : Prop := -32768 ≤ v ∧ v < 32768

/-- Text representable in a reply buffer and free of NUL bytes: every
character is one nonzero byte. -/
abbrev ByteText (s : String) : Prop := ∀ c ∈ s.data, 0 < c.toNat ∧ c.toNat < 256

/-- A predicate holding of the content of an option when present. -/
def OptHolds {α : Type} (P : α → Prop) : Option α → Prop
  | none => True
  | some a => P a

instance {α : Type} (P : α → Prop) [DecidablePred P] (o : Option α) :
    Decidable (OptHolds P o) :=
  match o with
  | none => Decidable.isTrue trivial
  | some a => inferInstanceAs (Decidable (P a))

/-- A `ServerInfo` value that a real reply buffer can carry: numeric fields
within their Rust widths, text fields NUL-free bytes, and the spectator
pair either both present or both absent. -/
abbrev WellFormed (i : ServerInfo) : Prop :=
  ByteText i.name ∧ ByteText i.map ∧ ByteText i.folder ∧ ByteText i.game ∧
  ByteText i.version ∧ I16Range i.steamapp_id ∧
  OptHolds I16Range i.port ∧
  OptHolds (fun n => n < 18446744073709551616) i.steam_id ∧
  OptHolds I16Range i.spectator_port ∧ OptHolds ByteText i.spectator_name ∧
  i.spectator_port.isSome = i.spectator_name.isSome ∧
  OptHolds ByteText i.keywords ∧
  OptHolds (fun n => n < 18446744073709551616) i.game_id

theorem leVal_leBytes (w n : Nat) (h : n < 256 ^ w) : leVal (leBytes w n) = n := by
  induction w generalizing n with
  | zero =>
      simp only [pow_zero, Nat.lt_one_iff] at h
      subst h
      rfl
  | succ w ih =>
      have hdiv : n / 256 < 256 ^ w := by
        rw [Nat.div_lt_iff_lt_mul (by norm_num)]
        calc n < 256 ^ (w + 1) := h
          _ = 256 ^ w * 256 := by ring
      simp only [leBytes, leVal, ih (n / 256) hdiv]
      omega

theorem get_i16_le_encode (v : Int) (r : Bytes) (h : I16Range v) :
    get_i16_le (encodeI16 v ++ r) = .ok (v, r) := by
  obtain ⟨h1, h2⟩ := h
  have hb : encodeI16 v =
      [(v % 65536).toNat % 256, (v % 65536).toNat / 256 % 256] := rfl
  rw [hb]
  simp only [List.cons_append, List.nil_append, get_i16_le, leVal,
    mul_zero, add_zero]
  have hml : 0 ≤ v % 65536 := Int.emod_nonneg v (by norm_num)
  have hmu : v % 65536 < 65536 := Int.emod_lt_of_pos v (by norm_num)
  have hval : (v % 65536).toNat % 256 + 256 * ((v % 65536).toNat / 256 % 256)
      = (v % 65536).toNat := by omega
  rw [hval]
  have hi : i16ofNat (v % 65536).toNat = v := by
    unfold i16ofNat
    split <;> omega
  rw [hi]

theorem get_u64_le_encode (n : Nat) (r : Bytes)
    (h : n < 18446744073709551616) :
    get_u64_le (encodeU64 n ++ r) = .ok (n, r) := by
  have h2 : leVal (leBytes 8 n) = n := leVal_leBytes 8 n (by norm_num; omega)
  calc get_u64_le (encodeU64 n ++ r)
      = .ok (leVal (leBytes 8 n), r) := by
        have hb : encodeU64 n =
            [n % 256, n / 256 % 256, n / 256 / 256 % 256,
             n / 256 / 256 / 256 % 256, n / 256 / 256 / 256 / 256 % 256,
             n / 256 / 256 / 256 / 256 / 256 % 256,
             n / 256 / 256 / 256 / 256 / 256 / 256 % 256,
             n / 256 / 256 / 256 / 256 / 256 / 256 / 256 % 256] := rfl
        rw [hb]
        rfl
    _ = .ok (n, r) := by rw [h2]

theorem get_string_encode (s : String) (r : Bytes) (h : ByteText s) :
    get_string (encodeString s ++ r) = .ok (s, r) := by
  have h0 : (0 : Nat) ∉ s.data.map Char.toNat := by
    simp only [List.mem_map]
    rintro ⟨c, hc, hc0⟩
    have := (h c hc).1
    omega
  have hb : encodeString s ++ r = s.data.map Char.toNat ++ (0 :: r) := by
    simp [encodeString]
  rw [hb]
  unfold get_string
  rw [get_chars_append _ _ h0]
  simp [DecodeResult.map, List.map_map, Function.comp_def]

theorem readServerType_code (st : ServerType) :
    readServerType (serverTypeCode st) = .ok st := by
  cases st <;> rfl

theorem readOS_code (o : OS) : readOS (osCode o) = .ok o := by
  cases o <;> rfl

theorem pbind_ok {α β : Type} {f : Reader α} {g : α → Reader β} {l : Bytes}
    {a : α} {r : Bytes} (h : f l = .ok (a, r)) : pbind f g l = g a r := by
  unfold pbind
  rw [h]

theorem pbind_ppure {α β : Type} (a : α) (g : α → Reader β) (l : Bytes) :
    pbind (ppure a) g l = g a l := rfl

theorem pbind_assoc {α β γ : Type} (f : Reader α) (g : α → Reader β)
    (h : β → Reader γ) (l : Bytes) :
    pbind (pbind f g) h l = pbind f (fun a => pbind (g a) h) l := by
  unfold pbind
  cases f l <;> rfl

theorem pbind_get_u8_cons {β : Type} (b : Nat) (t : Bytes) (g : Nat → Reader β) :
    pbind get_u8 g (b :: t) = g b t := rfl

theorem pbind_get_string_encode {β : Type} (s : String) (h : ByteText s)
    (t : Bytes) (g : String → Reader β) :
    pbind get_string g (encodeString s ++ t) = g s t :=
  pbind_ok (get_string_encode s t h)

theorem pbind_get_i16_encode {β : Type} (v : Int) (h : I16Range v)
    (t : Bytes) (g : Int → Reader β) :
    pbind get_i16_le g (encodeI16 v ++ t) = g v t :=
  pbind_ok (get_i16_le_encode v t h)

theorem pbind_lift_ok {α β : Type} {d : DecodeResult α} {v : α}
    (h : d = .ok v) (g : α → Reader β) (t : Bytes) :
    pbind (fun b => d.map fun x => (x, b)) g t = g v t := by
  rw [h]
  rfl

theorem pbind_readIf_opt_i16 {β : Type} (o : Option Int)
    (h : OptHolds I16Range o) (t : Bytes) (g : Option Int → Reader β) :
    pbind (readIf o.isSome get_i16_le) g (encodeOpt o encodeI16 ++ t) = g o t := by
  cases o with
  | none => rfl
  | some v =>
      have hv : readIf true get_i16_le (encodeI16 v ++ t) = .ok (some v, t) := by
        simp [readIf, get_i16_le_encode v t h]
      exact pbind_ok hv

theorem pbind_readIf_opt_u64 {β : Type} (o : Option Nat)
    (h : OptHolds (fun n => n < 18446744073709551616) o) (t : Bytes)
    (g : Option Nat → Reader β) :
    pbind (readIf o.isSome get_u64_le) g (encodeOpt o encodeU64 ++ t) = g o t := by
  cases o with
  | none => rfl
  | some n =>
      have hv : readIf true get_u64_le (encodeU64 n ++ t) = .ok (some n, t) := by
        simp [readIf, get_u64_le_encode n t h]
      exact pbind_ok hv

theorem pbind_readIf_opt_string {β : Type} (o : Option String)
    (h : OptHolds ByteText o) (t : Bytes) (g : Option String → Reader β) :
    pbind (readIf o.isSome get_string) g (encodeOpt o encodeString ++ t) = g o t := by
  cases o with
  | none => rfl
  | some s =>
      have hv : readIf true get_string (encodeString s ++ t) = .ok (some s, t) := by
        simp [readIf, get_string_encode s t h]
      exact pbind_ok hv

theorem pbind_readIf_opt_spec {β : Type} (po : Option Int) (no : Option String)
    (hsame : po.isSome = no.isSome) (hp : OptHolds I16Range po)
    (hn : OptHolds ByteText no) (t : Bytes)
    (g : Option (Int × String) → Reader β) :
    pbind (readIf po.isSome get_spectator) g (encodeSpec po no ++ t) =
      g (specPair po no) t := by
  cases po with
  | none =>
      cases no with
      | none => rfl
      | some n => simp at hsame
  | some p =>
      cases no with
      | none => simp at hsame
      | some n =>
          have hs : get_spectator ((encodeI16 p ++ encodeString n) ++ t) =
              .ok ((p, n), t) := by
            unfold get_spectator
            rw [List.append_assoc]
            rw [pbind_ok (get_i16_le_encode p _ hp)]
            rw [pbind_ok (get_string_encode n t hn)]
            rfl
          have hv : readIf true get_spectator (encodeSpec (some p) (some n) ++ t) =
              .ok (some (p, n), t) := by
            simp only [encodeSpec, readIf, if_true, hs]
          exact pbind_ok hv

theorem specPair_fst (po : Option Int) (no : Option String)
    (hsame : po.isSome = no.isSome) :
    Option.map Prod.fst (specPair po no) = po := by
  cases po <;> cases no <;> simp_all [specPair]

theorem specPair_snd (po : Option Int) (no : Option String)
    (hsame : po.isSome = no.isSome) :
    Option.map Prod.snd (specPair po no) = no := by
  cases po <;> cases no <;> simp_all [specPair]

theorem edf_bit_128 (i : ServerInfo) :
    ((edfOf i &&& 128) != 0) = i.port.isSome := by
  cases hp : i.port.isSome <;> cases hs : i.steam_id.isSome <;>
    cases hv : i.spectator_port.isSome <;> cases hk : i.keywords.isSome <;>
    cases hg : i.game_id.isSome <;>
    simp only [edfOf, hp, hs, hv, hk, hg, if_true, if_false] <;> decide

theorem edf_bit_16 (i : ServerInfo) :
    ((edfOf i &&& 16) != 0) = i.steam_id.isSome := by
  cases hp : i.port.isSome <;> cases hs : i.steam_id.isSome <;>
    cases hv : i.spectator_port.isSome <;> cases hk : i.keywords.isSome <;>
    cases hg : i.game_id.isSome <;>
    simp only [edfOf, hp, hs, hv, hk, hg, if_true, if_false] <;> decide

theorem edf_bit_64 (i : ServerInfo) :
    ((edfOf i &&& 64) != 0) = i.spectator_port.isSome := by
  cases hp : i.port.isSome <;> cases hs : i.steam_id.isSome <;>
    cases hv : i.spectator_port.isSome <;> cases hk : i.keywords.isSome <;>
    cases hg : i.game_id.isSome <;>
    simp only [edfOf, hp, hs, hv, hk, hg, if_true, if_false] <;> decide

theorem edf_bit_32 (i : ServerInfo) :
    ((edfOf i &&& 32) != 0) = i.keywords.isSome := by
  cases hp : i.port.isSome <;> cases hs : i.steam_id.isSome <;>
    cases hv : i.spectator_port.isSome <;> cases hk : i.keywords.isSome <;>
    cases hg : i.game_id.isSome <;>
    simp only [edfOf, hp, hs, hv, hk, hg, if_true, if_false] <;> decide

theorem edf_bit_1 (i : ServerInfo) :
    ((edfOf i &&& 1) != 0) = i.game_id.isSome := by
  cases hp : i.port.isSome <;> cases hs : i.steam_id.isSome <;>
    cases hv : i.spectator_port.isSome <;> cases hk : i.keywords.isSome <;>
    cases hg : i.game_id.isSome <;>
    simp only [edfOf, hp, hs, hv, hk, hg, if_true, if_false] <;> decide

theorem boolByte_pub (b : Bool) : (((if b then 0 else 1) : Nat) == 0) = b := by
  cases b <;> rfl

theorem boolByte_vac (b : Bool) : (((if b then 1 else 0) : Nat) == 1) = b := by
  cases b <;> rfl

/-- C3: encoding a well-formed `ServerInfo` into a synthetic reply buffer
(header 0x49, the fixed fields in §4.2 order, the EDF byte derived from the
presence pattern, then the EDF-gated fields) and decoding it with
`from_bytes` reproduces exactly the same value in every field, including
`some`/`none` presence of all six optional fields. -/
theorem C3_roundtrip (i : ServerInfo) (h : WellFormed i) :
    from_bytes (encodeServerInfo i) = DecodeResult.ok i := by
  obtain ⟨hname, hmap, hfold, hgame, hver, hsid, hport, hsteam, hspp, hspn,
    hpair, hkw, hgid⟩ := h
  have hnil : encodeServerInfo i = encodeServerInfo i ++ [] :=
    (List.append_nil _).symm
  rw [hnil]
  unfold from_bytes encodeServerInfo decode
  simp only [List.cons_append, List.append_assoc, List.nil_append]
  simp only [pbind_get_u8_cons]
  rw [if_neg (by decide : ¬ (73 : Nat) ≠ 73)]
  simp only [pbind_get_u8_cons,
    pbind_get_string_encode i.name hname, pbind_get_string_encode i.map hmap,
    pbind_get_string_encode i.folder hfold,
    pbind_get_string_encode i.game hgame,
    pbind_get_i16_encode i.steamapp_id hsid,
    pbind_lift_ok (readServerType_code i.server_type),
    pbind_lift_ok (readOS_code i.os),
    pbind_get_string_encode i.version hver,
    decodeExtra, pbind_assoc, pbind_ppure,
    edf_bit_128, edf_bit_16, edf_bit_64, edf_bit_32, edf_bit_1,
    pbind_readIf_opt_i16 i.port hport,
    pbind_readIf_opt_u64 i.steam_id hsteam,
    pbind_readIf_opt_spec i.spectator_port i.spectator_name hpair hspp hspn,
    pbind_readIf_opt_string i.keywords hkw,
    pbind_readIf_opt_u64 i.game_id hgid,
    ppure]
  simp only [DecodeResult.map]
  rw [specPair_fst i.spectator_port i.spectator_name hpair,
    specPair_snd i.spectator_port i.spectator_name hpair,
    boolByte_pub, boolByte_vac]

/-- C3 witness: the second scenario's decoded value is well formed and
round-trips through the synthetic encoder. -/
theorem C3_roundtrip_witness :
    WellFormed c5actual ∧
    from_bytes (encodeServerInfo c5actual) = DecodeResult.ok c5actual :=
  ⟨by decide, C3_roundtrip c5actual (by decide)⟩

end SourceQuery
